import Mathlib

/-!
Shallow embedding of the Stockham autosort kernel generator of hcFFT
(`src/lib/src/generator.stockham.cpp`), restricted to the planning and
emission decisions needed for the verified properties: the curated radix
table (`KernelCoreSpecs`), work-group sizing (`DetermineSizes`), the greedy
radix decomposition loop of the `Kernel` constructor, the twiddle table
builder (`TwiddleTable::GenerateTwiddleTable`), the offset strings emitted
by `Pass::SweepRegs`, the float4 grouped-write fast path, the per-pass
twiddle-multiply guard of `Pass::GeneratePass`, and the launch geometry of
`FFTPlan::GetWorkSizesPvt<Stockham>`.

Machine integers (`size_t`) are modelled as `Nat`; all the modelled
quantities are small positive sizes, far from 2^64, and the C++ code never
relies on wrap-around for them, so plain `Nat` arithmetic with truncating
`/` and `%` (which agree with C++ unsigned division) is faithful.
C++ loops without a structural termination measure are modelled with an
explicit fuel argument; returning `none` on fuel exhaustion represents
non-termination of the source loop (the modelled loops mutate nothing but
the loop state, so a state-repeating iteration in the source loops forever
exactly when every fuel bound is exhausted in the model).
-/

namespace StockhamGenerator

/-- The `Precision` enumeration of the generator (`P_SINGLE` / `P_DOUBLE`). -/
inductive Precision where
  | P_SINGLE : Precision
  | P_DOUBLE : Precision
deriving DecidableEq, Repr

open Precision

/-- One row of `KernelCoreSpecs<PR>::SpecRecord`: length, work-group size,
number of transforms per group, number of passes, and the 12-slot radix
array (zero padded, as in the source). -/
structure SpecRecord where
  length : Nat
  workGroupSize : Nat
  numTransforms : Nat
  numPasses : Nat
  radices : List Nat
deriving DecidableEq, Repr

/-- The `RADIX_TABLE_COMMON` macro: rows shared by the single- and
double-precision tables. -/
def radixTableCommon : List SpecRecord :=
  [ ⟨2048, 256,  1, 4, [8, 8, 8, 4, 0, 0, 0, 0, 0, 0, 0, 0]⟩,
    ⟨ 512,  64,  1, 3, [8, 8, 8, 0, 0, 0, 0, 0, 0, 0, 0, 0]⟩,
    ⟨ 256,  64,  1, 4, [4, 4, 4, 4, 0, 0, 0, 0, 0, 0, 0, 0]⟩,
    ⟨  64,  64,  4, 3, [4, 4, 4, 0, 0, 0, 0, 0, 0, 0, 0, 0]⟩,
    ⟨  32,  64, 16, 2, [8, 4, 0, 0, 0, 0, 0, 0, 0, 0, 0, 0]⟩,
    ⟨  16,  64, 16, 2, [4, 4, 0, 0, 0, 0, 0, 0, 0, 0, 0, 0]⟩,
    ⟨   4,  64, 32, 2, [2, 2, 0, 0, 0, 0, 0, 0, 0, 0, 0, 0]⟩,
    ⟨   2,  64, 64, 1, [2, 0, 0, 0, 0, 0, 0, 0, 0, 0, 0, 0]⟩ ]

/-- The per-precision rows added by `KernelCoreSpecs<PR>::KernelCoreSpecs()`
on top of `RADIX_TABLE_COMMON`.  The tables are keyed by length (a
`std::map` in the source); all keys are distinct, so a list searched with
`find?` is an exact model. -/
def specTable : Precision → List SpecRecord
  | P_SINGLE =>
      radixTableCommon ++
      [ ⟨4096, 256,  1, 4, [8, 8, 8, 8, 0, 0, 0, 0, 0, 0, 0, 0]⟩,
        ⟨1024, 128,  1, 4, [8, 8, 4, 4, 0, 0, 0, 0, 0, 0, 0, 0]⟩,
        ⟨ 128,  64,  4, 3, [8, 4, 4, 0, 0, 0, 0, 0, 0, 0, 0, 0]⟩,
        ⟨   8,  64, 32, 2, [4, 2, 0, 0, 0, 0, 0, 0, 0, 0, 0, 0]⟩ ]
  | P_DOUBLE =>
      radixTableCommon ++
      [ ⟨1024, 128,  1, 4, [8, 8, 4, 4, 0, 0, 0, 0, 0, 0, 0, 0]⟩,
        ⟨ 128,  64,  4, 3, [8, 8, 2, 0, 0, 0, 0, 0, 0, 0, 0, 0]⟩,
        ⟨   8,  64, 16, 3, [2, 2, 2, 0, 0, 0, 0, 0, 0, 0, 0, 0]⟩ ]

/-- `KernelCoreSpecs::GetRadices`: the first `numPasses` radices of the row
keyed by `length`, or `none` (`pRadices = NULL, numPasses = 0`) when the
length is not in the table. -/
def GetRadices (pr : Precision) (length : Nat) : Option (List Nat) :=
  ((specTable pr).find? (fun rec => rec.length == length)).map
    (fun rec => rec.radices.take rec.numPasses)

/-- `KernelCoreSpecs::GetWGSAndNT`: (workGroupSize, numTransforms) of the
row keyed by `length`, if present. -/
def GetWGSAndNT (pr : Precision) (length : Nat) : Option (Nat × Nat) :=
  ((specTable pr).find? (fun rec => rec.length == length)).map
    (fun rec => (rec.workGroupSize, rec.numTransforms))

/-- The `while(!(l % rad)) { l /= rad; e *= rad; }` loop of
`DetermineSizes`, with fuel (the loop itself has no termination guard; for
`l ≥ 1` and `rad ≥ 2` it performs at most `log rad l < l` iterations, so
fuel `l` is never exhausted on the inputs the generator passes). -/
def extractPowAux (rad : Nat) : Nat → Nat → Nat → Nat × Nat
  | 0, l, e => (l, e)
  | fuel + 1, l, e =>
      if l % rad = 0 then extractPowAux rad fuel (l / rad) (e * rad) else (l, e)

/-- `size_t baseRadix[] = {13, 11, 7, 5, 3, 2};` -/
def baseRadix : List Nat := [13, 11, 7, 5, 3, 2]

/-- The prime-factor extraction prologue of `DetermineSizes`: returns the
residual `l` after dividing out all supported primes, together with the
`primeFactorsExpanded` association list mapping each supported prime to the
maximal power of it dividing `length`. -/
def primeFactorsExpanded (length : Nat) : Nat × List (Nat × Nat) :=
  baseRadix.foldl
    (fun acc rad =>
      let res := extractPowAux rad acc.1 acc.1 1
      (res.1, acc.2 ++ [(rad, res.2)]))
    (length, [])

/-- Lookup in the modelled `primeFactorsExpanded` map (`operator[]` with
the six keys always populated; 0 as a never-used default). -/
def pfeGet (m : List (Nat × Nat)) (rad : Nat) : Nat :=
  ((m.find? (fun p => p.1 == rad)).map Prod.snd).getD 0

/-- The `assert(l == 1)` of `DetermineSizes`: the length is composed of
supported primes only. -/
def supportedLength (length : Nat) : Prop :=
  (primeFactorsExpanded length).1 = 1

/-- `DetermineSizes(MAX_WGS, length, workGroupSize, numTrans, pr)`,
returning `(workGroupSize, numTrans)`.  Every branch of the source is
reproduced; the trailing `assert(workGroupSize <= MAX_WGS)` is *not* made a
postcondition (it is the subject of one of the claims). -/
def DetermineSizes (MAX_WGS length : Nat) (pr : Precision) : Nat × Nat :=
  if length = 1 then (64, 64)
  else
    let f := pfeGet (primeFactorsExpanded length).2
    if f 2 = length then
      -- Length is pure power of 2
      if 1024 ≤ length then ((if 256 ≤ MAX_WGS then 256 else MAX_WGS), 1)
      else if length = 512 then (64, 1)
      else if 16 ≤ length then (64, 256 / length)
      else (64, 128 / length)
    else if f 3 = length then
      -- Length is pure power of 3
      let wgs := if 256 ≤ MAX_WGS then 243 else 27
      (wgs, if 3 * wgs ≤ length then 1 else (3 * wgs) / length)
    else if f 5 = length then
      -- Length is pure power of 5
      let wgs := if 128 ≤ MAX_WGS then 125 else 25
      (wgs, if 5 * wgs ≤ length then 1 else (5 * wgs) / length)
    else if f 7 = length then
      -- Length is pure power of 7
      (49, if 7 * 49 ≤ length then 1 else (7 * 49) / length)
    else if f 11 = length then
      -- Length is pure power of 11: workGroupSize = 121 unconditionally
      (121, if 11 * 121 ≤ length then 1 else (11 * 121) / length)
    else if f 13 = length then
      -- Length is pure power of 13: workGroupSize = 169 unconditionally
      (169, if 13 * 169 ≤ length then 1 else (13 * 169) / length)
    else
      -- mixed-prime lengths
      let pair :=
        if f 2 * f 3 = length then
          (if length % 12 = 0 then ((12 : Nat), (128 : Nat)) else (6, 256))
        else if f 2 * f 5 = length then
          (if length % 20 = 0 then (20, 64) else (10, 128))
        else if f 2 * f 7 = length then (14, 64)
        else if f 3 * f 5 = length then (15, 128)
        else if f 3 * f 7 = length then (21, 128)
        else if f 5 * f 7 = length then (35, 64)
        else if f 2 * f 3 * f 5 = length then (30, 64)
        else if f 2 * f 3 * f 7 = length then (42, 60)
        else if f 2 * f 5 * f 7 = length then (70, 36)
        else if f 3 * f 5 * f 7 = length then (105, 24)
        else if f 2 * f 11 = length then (22, 128)
        else if f 2 * f 13 = length then (26, 128)
        else (210, 12)
      let leastNumPerWI := pair.1
      let maxWorkGroupSize := if pr = P_DOUBLE then pair.2 / 2 else pair.2
      let maxWorkGroupSize :=
        if MAX_WGS < maxWorkGroupSize then MAX_WGS else maxWorkGroupSize
      -- `for (lnpi = leastNumPerWI; lnpi <= length; lnpi += leastNumPerWI)`:
      -- first multiple of leastNumPerWI (up to length) that divides length
      -- with quotient ≤ MAX_WGS; leastNumPerWI is left unchanged when no
      -- multiple breaks out of the loop.
      let leastNumPerWI :=
        (((List.range (length / leastNumPerWI)).map
            (fun t => (t + 1) * leastNumPerWI)).find?
          (fun lnpi =>
            length % lnpi == 0 && decide (length / lnpi ≤ MAX_WGS))).getD
          leastNumPerWI
      let numTrans := maxWorkGroupSize / (length / leastNumPerWI)
      let numTrans := if numTrans < 1 then 1 else numTrans
      (numTrans * (length / leastNumPerWI), numTrans)

/-- `size_t cRad[] = {13, 11, 10, 8, 7, 6, 5, 4, 3, 2, 1};` of the
`Kernel<PR>::Kernel` radix-decomposition loop. -/
def cRad : List Nat := [13, 11, 10, 8, 7, 6, 5, 4, 3, 2, 1]

/-- The inner candidate scan of the decomposition loop: the first radix of
`cRad` with `rad ≤ cnPerWI`, `cnPerWI % rad == 0` and `R % rad == 0`.
When no candidate breaks out of the `for` loop, the C++ loop variable is
left holding the last examined candidate, `cRad[10] = 1`; `getD 1` models
that fall-through. -/
def pickRad (cnPerWI R : Nat) : Nat :=
  (cRad.find? (fun rad =>
    !(decide (cnPerWI < rad)) && cnPerWI % rad == 0 && R % rad == 0)).getD 1

/-- The `while(true)` radix-decomposition loop of `Kernel<PR>::Kernel`
(also reproduced verbatim in `FFTPlan::GenerateKernelPvt<Stockham>` for the
`exist == true` path): pick a radix, append it, divide it out of `R`, stop
when `R` reaches 1.  Fuel exhaustion (`none`) models non-termination of the
source loop: one iteration changes only `R` and the accumulator, and the
radix choice depends only on `(cnPerWI, R)`, so an iteration that leaves
`R` unchanged (radix 1 picked with `R > 1`) repeats forever. -/
def greedyLoop (cnPerWI : Nat) : Nat → Nat → List Nat → Option (List Nat)
  | 0, _, _ => none
  | fuel + 1, R, acc =>
      let rad := pickRad cnPerWI R
      let R' := R / rad
      if R' = 1 then some (acc ++ [rad])
      else greedyLoop cnPerWI fuel R' (acc ++ [rad])

/-- The radix sequence chosen by `Kernel<PR>::Kernel`: the curated table of
the kernel's own precision when the device work-group limit allows
(`fft_MaxWorkGroupSize >= 256`) and the length is tabulated, otherwise the
greedy descending-factor loop. -/
def kernelRadices (pr : Precision) (fft_MaxWorkGroupSize length cnPerWI fuel : Nat) :
    Option (List Nat) :=
  if 256 ≤ fft_MaxWorkGroupSize ∧ (GetRadices pr length).isSome then
    GetRadices pr length
  else
    greedyLoop cnPerWI fuel length []

/-- The radix sequence recomputed by the twiddle-table-only regeneration
path (`FFTPlan::GenerateKernelPvt<Stockham>` with `exist == true`): note
the source instantiates `KernelCoreSpecs<P_SINGLE>` here for **both**
precisions. -/
def regenRadices (fft_MaxWorkGroupSize length cnPerWI fuel : Nat) :
    Option (List Nat) :=
  if 256 ≤ fft_MaxWorkGroupSize ∧ (GetRadices P_SINGLE length).isSome then
    GetRadices P_SINGLE length
  else
    greedyLoop cnPerWI fuel length []

/-- The fields of `Pass<PR>` that the verified properties depend on,
as computed by the `Pass` constructor. -/
structure Pass where
  position : Nat
  length : Nat
  radix : Nat
  cnPerWI : Nat
  algL : Nat
  algLS : Nat
  algR : Nat
  numButterfly : Nat
  workGroupSize : Nat
  numB1 : Nat
  numB2 : Nat
  numB4 : Nat
  r2c : Bool
  c2r : Bool
  halfLds : Bool
  linearRegs : Bool
  enableGrouping : Bool
deriving DecidableEq, Repr

/-- The `Pass<PR>::Pass` constructor: derives `numButterfly = cnPerWI/radix`,
`workGroupSize = length/cnPerWI` (per-transform), and the butterfly-type
counts `numB1/numB2/numB4` (`enableGrouping` is initialised `true` and later
adjusted via `SetGrouping`). -/
def mkPass (position length radix cnPerWI L LS R : Nat)
    (linearRegs halfLds r2c c2r : Bool) : Pass :=
  let numButterfly := cnPerWI / radix
  let wgs := length / cnPerWI
  if linearRegs || r2c || c2r then
    { position := position, length := length, radix := radix,
      cnPerWI := cnPerWI, algL := L, algLS := LS, algR := R,
      numButterfly := numButterfly, workGroupSize := wgs,
      numB1 := numButterfly, numB2 := 0, numB4 := 0,
      r2c := r2c, c2r := c2r, halfLds := halfLds,
      linearRegs := linearRegs, enableGrouping := true }
  else
    { position := position, length := length, radix := radix,
      cnPerWI := cnPerWI, algL := L, algLS := LS, algR := R,
      numButterfly := numButterfly, workGroupSize := wgs,
      numB1 := numButterfly % 2, numB2 := numButterfly % 4 / 2,
      numB4 := numButterfly / 4,
      r2c := r2c, c2r := c2r, halfLds := halfLds,
      linearRegs := linearRegs, enableGrouping := true }

/-- `Kernel<PR>::Kernel` sets `halfLds = true; linearRegs = true;` and, in
blocked-computation mode, `halfLds = false; linearRegs = true;`. -/
def kernelHalfLds (blockCompute : Bool) : Bool := !blockCompute

/-- `linearRegs` as set by `Kernel<PR>::Kernel` (`true` on both branches). -/
def kernelLinearRegs (_blockCompute : Bool) : Bool := true

/-- `Kernel<PR>::IsGroupedReadWritePossible`: grouping is disabled for
real transforms and `realSpecial` plans, and whenever any higher-dimension
input or output stride is odd (the in-place case passes `inStride` for
both, as the source does). -/
def IsGroupedReadWritePossible (r2c2r realSpecial : Bool)
    (inStride outStride : List Nat) : Bool :=
  if r2c2r then false
  else if realSpecial then false
  else
    (inStride.drop 1).all (fun s => s % 2 == 0) &&
    (outStride.drop 1).all (fun s => s % 2 == 0)

/-- The parameters of a `Pass::SweepRegs` invocation that decide which
write-emission path is taken. -/
structure SweepRegsArgs where
  numB : Nat
  regC : Nat
  stride : Nat
  numButterfly : Nat
  algLS : Nat
  flagIsWrite : Bool
  nextPassNone : Bool
  interleaved : Bool
  componentBoth : Bool
  linearRegs : Bool
  enableGrouping : Bool
deriving DecidableEq, Repr

/-- The guard of the float4 grouped-store fast path of `Pass::SweepRegs`
("special write back to global memory with float4 grouping, writing 2
complex numbers at once"), exactly as in the source:
`numB && (numB % 2 == 0) && (regC == 1) && (stride == 1) &&
(numButterfly % 2 == 0) && (algLS % 2 == 0) && (flag == SR_WRITE) &&
(nextPass == NULL) && interleaved && (component == SR_COMP_BOTH) &&
linearRegs && enableGrouping`. -/
def groupedFloat4FastPath (a : SweepRegsArgs) : Bool :=
  (a.numB != 0) && (a.numB % 2 == 0) && (a.regC == 1) && (a.stride == 1) &&
  (a.numButterfly % 2 == 0) && (a.algLS % 2 == 0) && a.flagIsWrite &&
  a.nextPassNone && a.interleaved && a.componentBoth &&
  a.linearRegs && a.enableGrouping

/-- The fast-path condition as the specification words it: output stride 1,
linear registers, no next pass (final write), even per-work-item butterfly
count, complex-interleaved data.  Stated from the spec's words only, to be
compared against `groupedFloat4FastPath`. -/
def claimedFastPathC7 (a : SweepRegsArgs) : Bool :=
  (a.stride == 1) && a.linearRegs && a.nextPassNone &&
  (a.numButterfly % 2 == 0) && a.interleaved

/-- The global/local read offset string built by `Pass::SweepRegs` in the
linear-register `SR_READ` block for butterfly `i`, radix digit `r`
(`SztToStr` is decimal rendering; `r*length/radix` is C++ left-to-right
`(r*length)/radix`). -/
def readBufOffset (offset : String) (numPrev numButterfly i length radix r stride : Nat) :
    String :=
  offset ++ " + ( " ++ toString numPrev ++ " + " ++ "me*" ++
  toString numButterfly ++ " + " ++ toString i ++ " + " ++
  toString (r * length / radix) ++ " )*" ++ toString stride

/-- The read offset as the specification words it:
`(numPrev + me*numButterfly + i + r*(length/radix)) * stride`. -/
def claimedReadBufOffset (offset : String)
    (numPrev numButterfly i length radix r stride : Nat) : String :=
  offset ++ " + ( " ++ toString numPrev ++ " + " ++ "me*" ++
  toString numButterfly ++ " + " ++ toString i ++ " + " ++
  toString (r * (length / radix)) ++ " )*" ++ toString stride

/-- The final-write offset construction of `Pass::SweepRegs` (the
`linearRegs && flag == SR_WRITE && nextPass == NULL` block).  First
component: the `bufOffset` string.  Second component: the text the same
block appends to `passStr` *while building the offset* -- in the
`numButterfly*workGroupSize > algLS` branch the source line is
`passStr += SztToStr(algL);` (not `bufOffset += ...`), so the `algL`
multiplier lands in the surrounding pass string, not in the offset. -/
def finalWriteBufOffset (offset : String)
    (numButterfly workGroupSize butterflyIndex algLS algL r stride : Nat) :
    String × String :=
  if algLS < numButterfly * workGroupSize then
    (offset ++ " + ( " ++ "((" ++ toString numButterfly ++ "*me + " ++
       toString butterflyIndex ++ ")/" ++ toString algLS ++ ")*" ++
       " + (" ++ toString numButterfly ++ "*me + " ++
       toString butterflyIndex ++ ")%" ++ toString algLS ++ " + " ++
       toString (r * algLS) ++ " )*" ++ toString stride,
     toString algL)
  else
    (offset ++ " + ( " ++ toString numButterfly ++ "*me + " ++
       toString butterflyIndex ++ " + " ++
       toString (r * algLS) ++ " )*" ++ toString stride,
     "")

/-- The final-write offset as the claim words it: in the overflow case the
`/LS, %LS` correction carries the `*L` multiplier inside the offset
expression, `(((me*numButterfly + b)/LS)*L + (me*numButterfly + b)%LS +
r*LS)*stride` (this is also what the general write path of `SweepRegs`
emits, via `bufOffset += SztToStr(algL)`). -/
def claimedFinalWriteBufOffset (offset : String)
    (numButterfly workGroupSize butterflyIndex algLS algL r stride : Nat) :
    String :=
  if algLS < numButterfly * workGroupSize then
    offset ++ " + ( " ++ "((" ++ toString numButterfly ++ "*me + " ++
      toString butterflyIndex ++ ")/" ++ toString algLS ++ ")*" ++
      toString algL ++ " + (" ++ toString numButterfly ++ "*me + " ++
      toString butterflyIndex ++ ")%" ++ toString algLS ++ " + " ++
      toString (r * algLS) ++ " )*" ++ toString stride
  else
    offset ++ " + ( " ++ toString numButterfly ++ "*me + " ++
      toString butterflyIndex ++ " + " ++
      toString (r * algLS) ++ " )*" ++ toString stride

/-- The per-stage twiddle-multiply guard of `Pass::GeneratePass`:
`if( (position > 0) && (radix > 1) )` wraps the `SR_TWMUL` sweeps. -/
def twiddleMulEmitted (position radix : Nat) : Bool :=
  decide (0 < position) && decide (1 < radix)

/-- The butterfly-call guard of `Pass::GeneratePass`: `if(radix > 1)`. -/
def butterflyCalled (radix : Nat) : Bool := decide (1 < radix)

/-- One stage of `TwiddleTable::GenerateTwiddleTable` with stage stride `L`:
for `k` in `[0, L/radix)` and `j` in `[1, radix)` the source emits the pair
`(cos(j*theta), sin(j*theta))` with `theta = TWO_PI*k/L`, `TWO_PI = -2*pi`,
computed in double precision.  An entry is represented by the exact angle
data `(j*k, L)`: the emitted pair is
`(cos(-2*pi*(j*k)/L), sin(-2*pi*(j*k)/L))`. -/
def twiddleStage (radix L : Nat) : List (Nat × Nat) :=
  ((List.range (L / radix)).map (fun k =>
    (List.range (radix - 1)).map (fun j => ((j + 1) * k, L)))).flatten

/-- The stage loop of `TwiddleTable::GenerateTwiddleTable`: `L` starts at 1
and is multiplied by the radix at the head of each stage. -/
def GenerateTwiddleTable : List Nat → Nat → List (Nat × Nat)
  | [], _ => []
  | radix :: rest, Lprev =>
      twiddleStage radix (Lprev * radix) ++ GenerateTwiddleTable rest (Lprev * radix)

/-- The full twiddle table (as exact angle data `(j*k, L)` per entry, in
emission order) for a radix sequence. -/
def twiddleTable (radices : List Nat) : List (Nat × Nat) :=
  GenerateTwiddleTable radices 1

/-- Modelled from the spec: `DivRoundingUp` is used by
`FFTPlan::GetWorkSizesPvt<Stockham>` but defined in a repository header
that is not present under `src/`; the spec describes the computation as a
ceiling division (`ceil(count / divisor)`), which for unsigned integers is
`(a + b - 1) / b`. -/
def DivRoundingUp (a b : Nat) : Nat := (a + b - 1) / b

/-- The non-blocked branch of `FFTPlan::GetWorkSizesPvt<Stockham>`:
given the total complex-element count, `fft_R` (values per work-item) and
`fft_SIMD` (work-group size), returns `(globalWS, localWS)`.  The halving
happens exactly when the transform has a real input or output layout and
is not RC-simple. -/
def GetWorkSizes (count fft_R fft_SIMD : Nat)
    (realIn realOut rcSimple : Bool) : Nat × Nat :=
  let c1 := DivRoundingUp count fft_R
  let c2 := DivRoundingUp c1 fft_SIMD
  let c3 := if !rcSimple && (realIn || realOut) then DivRoundingUp c2 2 else c2
  (max c3 1 * fft_SIMD, fft_SIMD)

/-- Exact ceiling division written without the `(a + b - 1) / b` trick,
used to state the claimed launch-geometry formula independently of the
code's arithmetic. -/
def ceilDivSpec (a b : Nat) : Nat := a / b + (if b ∣ a then 0 else 1)

/-- The launch geometry as the claim words it: global work size is
`max(1, ceil(ceil(count / valuesPerWorkItem) / workGroupSize)) *
workGroupSize`, the work-group count halved (rounding up) before the final
multiply exactly for real-layout non-RC-simple transforms; local work size
is the work-group size. -/
def specWorkSizes (count vpw wgs : Nat)
    (realIn realOut rcSimple : Bool) : Nat × Nat :=
  let groups := ceilDivSpec (ceilDivSpec count vpw) wgs
  let groups := if (realIn || realOut) && !rcSimple then ceilDivSpec groups 2 else groups
  (max 1 groups * wgs, wgs)

/-! ### Helper lemmas -/

lemma sum_map_const (l : List Nat) (c : Nat) :
    (l.map (fun _ => c)).sum = l.length * c := by
  induction l with
  | nil => simp
  | cons x t ih => simp [ih, Nat.succ_mul, Nat.add_comm]

lemma twiddleStage_length (radix L : Nat) :
    (twiddleStage radix L).length = L / radix * (radix - 1) := by
  rw [twiddleStage, List.length_flatten, List.map_map]
  have h : (List.length ∘ fun k => (List.range (radix - 1)).map
      (fun j => ((j + 1) * k, L))) = fun _ => radix - 1 := by
    funext k; simp
  rw [h, sum_map_const, List.length_range]

lemma GenerateTwiddleTable_length (radices : List Nat) :
    ∀ Lprev, 1 ≤ Lprev → (∀ r ∈ radices, 1 ≤ r) →
      (GenerateTwiddleTable radices Lprev).length = Lprev * radices.prod - Lprev := by
  induction radices with
  | nil => intro Lprev _ _; simp [GenerateTwiddleTable]
  | cons radix rest ih =>
    intro Lprev hL hall
    have hrad : 1 ≤ radix := hall radix (by simp)
    have hrest : ∀ r ∈ rest, 1 ≤ r := fun r hr => hall r (by simp [hr])
    have hprod : 1 ≤ rest.prod := List.one_le_prod_of_one_le hrest
    rw [GenerateTwiddleTable, List.length_append, twiddleStage_length,
      ih (Lprev * radix) (Nat.mul_pos (by omega) (by omega)) hrest,
      Nat.mul_div_cancel _ (by omega : 0 < radix), List.prod_cons, ← Nat.mul_assoc]
    have e1 : Lprev * (radix - 1) = Lprev * radix - Lprev := by
      cases radix with
      | zero => omega
      | succ s => simp only [Nat.add_sub_cancel, Nat.mul_succ]
    have e2 : Lprev * radix ≤ Lprev * radix * rest.prod :=
      Nat.le_mul_of_pos_right _ (by omega)
    have e3 : Lprev ≤ Lprev * radix := Nat.le_mul_of_pos_right _ (by omega)
    rw [e1]
    generalize Lprev * radix = B at *
    generalize B * rest.prod = C at *
    omega

lemma twiddleStage_head (radix L : Nat) (h2 : 2 ≤ radix) (hL : radix ≤ L) :
    (twiddleStage radix L).head?.map Prod.fst = some 0 := by
  obtain ⟨m, hm⟩ : ∃ m, L / radix = m + 1 :=
    ⟨L / radix - 1, by
      have h1 : 1 ≤ L / radix := (Nat.one_le_div_iff (by omega)).2 hL
      omega⟩
  obtain ⟨s, hs⟩ : ∃ s, radix - 1 = s + 1 := ⟨radix - 2, by omega⟩
  rw [twiddleStage, hm, List.range_succ_eq_map, List.map_cons, List.flatten_cons,
    hs, List.range_succ_eq_map, List.map_cons]
  simp

lemma GenerateTwiddleTable_head (radices : List Nat) :
    ∀ Lprev, 1 ≤ Lprev → (∀ r ∈ radices, 1 ≤ r) → 2 ≤ radices.prod →
      (GenerateTwiddleTable radices Lprev).head?.map Prod.fst = some 0 := by
  induction radices with
  | nil => intro Lprev _ _ h2; simp at h2
  | cons radix rest ih =>
    intro Lprev hL hall h2
    have hrad : 1 ≤ radix := hall radix (by simp)
    have hrest : ∀ r ∈ rest, 1 ≤ r := fun r hr => hall r (by simp [hr])
    by_cases hr1 : radix = 1
    · subst hr1
      have hlen : (twiddleStage 1 (Lprev * 1)).length = 0 := by
        rw [twiddleStage_length]; simp
      rw [GenerateTwiddleTable, List.length_eq_zero.1 hlen, List.nil_append]
      refine ih (Lprev * 1) (by omega) hrest ?_
      simpa using h2
    · have hd := twiddleStage_head radix (Lprev * radix) (by omega)
        (Nat.le_mul_of_pos_left _ (by omega))
      rw [GenerateTwiddleTable]
      cases hh : twiddleStage radix (Lprev * radix) with
      | nil => rw [hh] at hd; simp at hd
      | cons x t => rw [hh] at hd; simpa using hd

lemma DivRoundingUp_eq_ceilDivSpec (a b : Nat) (hb : 0 < b) :
    DivRoundingUp a b = ceilDivSpec a b := by
  rw [DivRoundingUp, ceilDivSpec]
  have hmod := Nat.div_add_mod a b
  have hlt : a % b < b := Nat.mod_lt _ hb
  rcases Nat.eq_zero_or_pos (a % b) with h | h
  · have hdvd : b ∣ a := Nat.dvd_of_mod_eq_zero h
    have e : a + b - 1 = b * (a / b) + (b - 1) := by omega
    have hb1 : (b - 1) / b = 0 := Nat.div_eq_of_lt (by omega)
    rw [e, Nat.mul_add_div hb, hb1, if_pos hdvd]
  · have hndvd : ¬ b ∣ a := by
      intro hc
      obtain ⟨k, rfl⟩ := hc
      simp [Nat.mul_mod_right] at h
    have e : a + b - 1 = b * (a / b) + (a % b + b - 1) := by omega
    have h1 : (a % b + b - 1) / b = 1 :=
      Nat.div_eq_of_lt_le (by omega) (by omega)
    rw [e, Nat.mul_add_div hb, h1, if_neg hndvd]

lemma pickRad_mem_or_one (cn R : Nat) : pickRad cn R ∈ cRad ∨ pickRad cn R = 1 := by
  rw [pickRad]
  cases h : cRad.find? (fun rad =>
      !(decide (cn < rad)) && cn % rad == 0 && R % rad == 0) with
  | none => right; rfl
  | some rad =>
    left
    have := List.mem_of_find?_eq_some h
    simpa using this

lemma pickRad_pos (cn R : Nat) : 1 ≤ pickRad cn R := by
  rcases pickRad_mem_or_one cn R with h | h
  · have hall : ∀ x ∈ cRad, 1 ≤ x := by decide
    exact hall _ h
  · omega

lemma pickRad_dvd (cn R : Nat) (h : pickRad cn R ≠ 1) : R % pickRad cn R = 0 := by
  rw [pickRad] at h ⊢
  by_cases hN : cRad.find? (fun rad =>
      !(decide (cn < rad)) && cn % rad == 0 && R % rad == 0) = none
  · rw [hN] at h; simp at h
  · obtain ⟨rad, hf⟩ := Option.ne_none_iff_exists'.1 hN
    have hp := List.find?_some hf
    rw [hf]
    simp only [Option.getD_some]
    simp only [Bool.and_eq_true, beq_iff_eq] at hp
    exact hp.2

lemma greedyLoop_stuck (cn R : Nat) (h1 : pickRad cn R = 1) (h2 : R ≠ 1) :
    ∀ fuel acc, greedyLoop cn fuel R acc = none := by
  intro fuel
  induction fuel with
  | zero => intro acc; rfl
  | succ f ih =>
    intro acc
    simp only [greedyLoop, h1, Nat.div_one, if_neg h2]
    exact ih _

lemma greedyLoop_zero_len (cn : Nat) : ∀ fuel acc, greedyLoop cn fuel 0 acc = none := by
  intro fuel
  induction fuel with
  | zero => intro acc; rfl
  | succ f ih =>
    intro acc
    simp only [greedyLoop, Nat.zero_div]
    rw [if_neg (by omega : ¬ (0 : Nat) = 1)]
    exact ih _

lemma pickRad_one (cn : Nat) : pickRad cn 1 = 1 := by
  rcases Nat.eq_zero_or_pos cn with h | h
  · subst h; decide
  · rw [pickRad, cRad]
    simp [List.find?, Nat.lt_one_iff, Nat.pos_iff_ne_zero.1 h, Nat.mod_one]

lemma greedyLoop_one (cn fuel : Nat) (hf : 1 ≤ fuel) (acc : List Nat) :
    greedyLoop cn fuel 1 acc = some (acc ++ [1]) := by
  obtain ⟨f, rfl⟩ : ∃ f, fuel = f + 1 := ⟨fuel - 1, by omega⟩
  simp [greedyLoop, pickRad_one]

lemma greedyLoop_all_ge_two (cn : Nat) :
    ∀ fuel R acc rs, 2 ≤ R → (∀ r ∈ acc, 2 ≤ r) →
      greedyLoop cn fuel R acc = some rs → ∀ r ∈ rs, 2 ≤ r := by
  intro fuel
  induction fuel with
  | zero => intro R acc rs _ _ h; exact absurd h (by simp [greedyLoop])
  | succ f ih =>
    intro R acc rs hR hacc h
    by_cases h1 : pickRad cn R = 1
    · rw [greedyLoop_stuck cn R h1 (by omega)] at h; cases h
    · have hpos := pickRad_pos cn R
      have hdvd : R % pickRad cn R = 0 := pickRad_dvd cn R h1
      have hle : pickRad cn R ≤ R :=
        Nat.le_of_dvd (by omega) (Nat.dvd_of_mod_eq_zero hdvd)
      have hR1 : 1 ≤ R / pickRad cn R := (Nat.one_le_div_iff (by omega)).2 hle
      simp only [greedyLoop] at h
      by_cases hif : R / pickRad cn R = 1
      · rw [if_pos hif] at h
        obtain rfl := Option.some.inj h
        intro r hr
        rcases List.mem_append.1 hr with hr | hr
        · exact hacc r hr
        · simp at hr; omega
      · rw [if_neg hif] at h
        refine ih _ _ _ (by omega) ?_ h
        intro r hr
        rcases List.mem_append.1 hr with hr | hr
        · exact hacc r hr
        · simp at hr; omega

lemma specTable_radices_ge_two :
    ∀ pr : Precision, ∀ rec ∈ specTable pr,
      ∀ r ∈ rec.radices.take rec.numPasses, 2 ≤ r := by
  intro pr; cases pr <;> decide

lemma GetRadices_ge_two (pr : Precision) (length : Nat) (rs : List Nat)
    (h : GetRadices pr length = some rs) : ∀ r ∈ rs, 2 ≤ r := by
  rw [GetRadices] at h
  cases hf : (specTable pr).find? (fun rec => rec.length == length) with
  | none => rw [hf] at h; cases h
  | some rec =>
    rw [hf] at h
    simp only [Option.map_some'] at h
    obtain rfl := Option.some.inj h
    exact specTable_radices_ge_two pr rec (List.mem_of_find?_eq_some hf)

/-! ### Claim theorems -/

/-- C1: the radix decomposition does *not* succeed for every length that is
a product of primes from {2,3,5,7,11,13}.  For length 2310 = 2·3·5·7·11
(not in the curated table), `DetermineSizes` chooses `workGroupSize = 11`,
`numTrans = 1` via the conservative 210-values-per-item fallback, so
`cnPerWI = (1*2310)/11 = 210`; the greedy loop then reduces the remaining
factor to 11, and since no candidate radix greater than 1 divides both 210
and 11 it picks radix 1 forever: the loop never terminates (`none` for
every fuel bound), contradicting the claim that it terminates with
remaining factor 1 and product equal to the length. -/
theorem greedy_decomposition_diverges_on_2310 :
    DetermineSizes 256 2310 Precision.P_SINGLE = (11, 1) ∧
    (1 * 2310) / 11 = 210 ∧
    ∀ fuel, kernelRadices Precision.P_SINGLE 256 2310 210 fuel = none := by
  refine ⟨by decide, by decide, ?_⟩
  have h11 : ∀ fuel acc, greedyLoop 210 fuel 11 acc = none :=
    greedyLoop_stuck 210 11 (by decide) (by decide)
  have h33 : ∀ fuel acc, greedyLoop 210 fuel 33 acc = none := by
    intro fuel acc
    cases fuel with
    | zero => rfl
    | succ f =>
      simp only [greedyLoop, show pickRad 210 33 = 3 from by decide]
      norm_num
      exact h11 f _
  have h231 : ∀ fuel acc, greedyLoop 210 fuel 231 acc = none := by
    intro fuel acc
    cases fuel with
    | zero => rfl
    | succ f =>
      simp only [greedyLoop, show pickRad 210 231 = 7 from by decide]
      norm_num
      exact h33 f _
  have h2310 : ∀ fuel acc, greedyLoop 210 fuel 2310 acc = none := by
    intro fuel acc
    cases fuel with
    | zero => rfl
    | succ f =>
      simp only [greedyLoop, show pickRad 210 2310 = 10 from by decide]
      norm_num
      exact h231 f _
  intro fuel
  rw [kernelRadices]
  rw [if_neg (by simp [show GetRadices Precision.P_SINGLE 2310 = none from by decide])]
  exact h2310 fuel []

/-- C2: the work-group bound fails on the pure-power-of-11 branch of
`DetermineSizes`: for length 11 and device limit `MAX_WGS = 64` (the
smallest limit the function accepts), the branch sets
`workGroupSize = 121 > 64`, so the function's own trailing
`assert(workGroupSize <= MAX_WGS)` fires. -/
theorem DetermineSizes_pow11_exceeds_device_limit :
    DetermineSizes 64 11 Precision.P_SINGLE = (121, 121) ∧
    ¬ ((DetermineSizes 64 11 Precision.P_SINGLE).1 ≤ 64) := by
  exact ⟨by decide, by decide⟩

/-- C4: in the final-write (`linearRegs && SR_WRITE && nextPass == NULL`)
block of `Pass::SweepRegs`, the `numButterfly*workGroupSize > algLS` branch
appends the `algL` multiplier to `passStr` instead of `bufOffset`: at
`numButterfly = 2, workGroupSize = 2, butterflyIndex = 0, algLS = 2,
algL = 4, r = 1, stride = 1` the emitted offset is
`outOffset + ( ((2*me + 0)/2)* + (2*me + 0)%2 + 2 )*1` -- the `*L`
multiplier is missing from the offset expression (the stray `4` lands in
the pass string), diverging from the claimed offset (which the general
write path of the same function does emit, via `bufOffset +=
SztToStr(algL)`).  The read offset matches the claim. -/
theorem finalWrite_offset_drops_algL_multiplier :
    (finalWriteBufOffset "outOffset" 2 2 0 2 4 1 1).1
      = "outOffset + ( ((2*me + 0)/2)* + (2*me + 0)%2 + 2 )*1" ∧
    claimedFinalWriteBufOffset "outOffset" 2 2 0 2 4 1 1
      = "outOffset + ( ((2*me + 0)/2)*4 + (2*me + 0)%2 + 2 )*1" ∧
    (finalWriteBufOffset "outOffset" 2 2 0 2 4 1 1).1
      ≠ claimedFinalWriteBufOffset "outOffset" 2 2 0 2 4 1 1 ∧
    (finalWriteBufOffset "outOffset" 2 2 0 2 4 1 1).2 = "4" ∧
    readBufOffset "inOffset" 0 2 1 8 4 3 1
      = claimedReadBufOffset "inOffset" 0 2 1 8 4 3 1 := by
  exact ⟨by decide, by decide, by decide, by decide, by decide⟩

/-- C9: the twiddle-table-only regeneration path uses the single-precision
radix table for both precisions (`KernelCoreSpecs<P_SINGLE> kcs;`), so for
a double-precision plan of length 8 with device limit ≥ 256 it recomputes
radices `[4, 2]` while the kernel constructor used the double-precision
table's `[2, 2, 2]`: the regenerated twiddle table does not match the
generated kernel source. -/
theorem regeneration_consults_single_precision_table :
    kernelRadices Precision.P_DOUBLE 256 8 2 1 = some [2, 2, 2] ∧
    regenRadices 256 8 2 1 = some [4, 2] ∧
    kernelRadices Precision.P_DOUBLE 256 8 2 1 ≠ regenRadices 256 8 2 1 := by
  exact ⟨by decide, by decide, by decide⟩

/-- C10: `Kernel<PR>::Kernel` sets `linearRegs = true` on every branch, so
every `Pass` it constructs takes the `linearRegs || r2c || c2r` branch of
the butterfly-count computation: `numB1 = numButterfly` and
`numB2 = numB4 = 0`, whatever the block-compute mode and transform kind --
only width-1 butterflies are ever declared, emitted, or called. -/
theorem kernel_passes_use_only_B1
    (position length radix cnPerWI L LS R : Nat) (blockCompute r2c c2r : Bool) :
    (mkPass position length radix cnPerWI L LS R
        (kernelLinearRegs blockCompute) (kernelHalfLds blockCompute) r2c c2r).numB1
      = (mkPass position length radix cnPerWI L LS R
        (kernelLinearRegs blockCompute) (kernelHalfLds blockCompute) r2c c2r).numButterfly ∧
    (mkPass position length radix cnPerWI L LS R
        (kernelLinearRegs blockCompute) (kernelHalfLds blockCompute) r2c c2r).numB2 = 0 ∧
    (mkPass position length radix cnPerWI L LS R
        (kernelLinearRegs blockCompute) (kernelHalfLds blockCompute) r2c c2r).numB4 = 0 := by
  simp [mkPass, kernelLinearRegs]

/-- C6 counterexample: for length 1 the constructed kernel does **not**
have zero passes: the greedy decomposition loop always executes its body at
least once, so it pushes a single radix-1 pass (`radices = [1]`,
`numPasses = 1 ≠ 0`). -/
theorem length_one_kernel_has_one_pass :
    kernelRadices Precision.P_SINGLE 256 1 1 1 = some [1] ∧
    (kernelRadices Precision.P_SINGLE 256 1 1 1).map List.length ≠ some 0 := by
  exact ⟨by decide, by decide⟩

/-- C6 amended: for length 1 (any precision, any device limit),
`DetermineSizes` special-cases `workGroupSize = 64`, `numTrans = 64`
(hence `cnPerWI = (64*1)/64 = 1`), and the constructed kernel consists of
exactly one pass of radix 1, which emits no per-stage twiddle rotation and
calls no butterfly: the generated transform is an identity copy. -/
theorem length_one_special_case (pr : Precision) (MAX_WGS fuel : Nat)
    (hf : 1 ≤ fuel) :
    DetermineSizes MAX_WGS 1 pr = (64, 64) ∧
    kernelRadices pr MAX_WGS 1 1 fuel = some [1] ∧
    twiddleMulEmitted 0 1 = false ∧
    butterflyCalled 1 = false := by
  refine ⟨by simp [DetermineSizes], ?_, by decide, by decide⟩
  rw [kernelRadices]
  have hnone : GetRadices pr 1 = none := by cases pr <;> decide
  rw [if_neg (by simp [hnone])]
  simpa using greedyLoop_one 1 fuel hf []

/-- Witness for `length_one_special_case` at `pr = P_SINGLE`,
`MAX_WGS = 64`, `fuel = 1`. -/
theorem length_one_special_case_witness :
    1 ≤ 1 ∧
    (DetermineSizes 64 1 Precision.P_SINGLE = (64, 64) ∧
      kernelRadices Precision.P_SINGLE 64 1 1 1 = some [1] ∧
      twiddleMulEmitted 0 1 = false ∧
      butterflyCalled 1 = false) :=
  ⟨by decide, length_one_special_case Precision.P_SINGLE 64 1 (by decide)⟩

/-- C5: for every positive `fft_R` (values per work-item) and `fft_SIMD`
(work-group size), the launch geometry computed by the non-blocked branch
of `GetWorkSizesPvt<Stockham>` equals the claimed formula: global work size
`max(1, ceil(ceil(count / fft_R) / fft_SIMD)) * fft_SIMD` with the
work-group count halved (rounding up) before the final multiply exactly
when the transform has a real input or output layout and is not RC-simple,
and local work size `fft_SIMD`. -/
theorem GetWorkSizes_matches_spec (count fft_R fft_SIMD : Nat)
    (realIn realOut rcSimple : Bool) (h1 : 0 < fft_R) (h2 : 0 < fft_SIMD) :
    GetWorkSizes count fft_R fft_SIMD realIn realOut rcSimple
      = specWorkSizes count fft_R fft_SIMD realIn realOut rcSimple := by
  cases rcSimple <;> cases realIn <;> cases realOut <;>
    simp [GetWorkSizes, specWorkSizes,
      DivRoundingUp_eq_ceilDivSpec _ _ h1, DivRoundingUp_eq_ceilDivSpec _ _ h2,
      DivRoundingUp_eq_ceilDivSpec _ 2 (by norm_num), Nat.max_comm]

/-- Witness for `GetWorkSizes_matches_spec` at
`count = 1000, fft_R = 8, fft_SIMD = 64`, real input, out-of-simple mode. -/
theorem GetWorkSizes_matches_spec_witness :
    (0 < 8 ∧ 0 < 64) ∧
    GetWorkSizes 1000 8 64 true false false
      = specWorkSizes 1000 8 64 true false false :=
  ⟨⟨by decide, by decide⟩,
    GetWorkSizes_matches_spec 1000 8 64 true false false (by decide) (by decide)⟩

/-- C3 counterexample: entry 0 of the twiddle table does not have angle
`-2*pi/radix_0`.  For the radix sequence `[2]` the table is the single
entry with angle data `(j*k, L) = (0, 2)`, i.e. angle `-2*pi*0/2 = 0`
(the pair `(cos, sin) = (1, 0)`), whereas the claimed angle `-2*pi/2`
has cosine `-1`. -/
theorem twiddleTable_entry0_is_unity_rotation :
    twiddleTable [2] = [(0, 2)] ∧
    Real.cos (-(2 * Real.pi) * 0 / 2) = 1 ∧
    Real.cos (-(2 * Real.pi) * 1 / 2) = -1 ∧
    (1 : ℝ) ≠ -1 := by
  refine ⟨by decide, ?_, ?_, by norm_num⟩
  · norm_num
  · have e : -(2 * Real.pi) * 1 / 2 = -Real.pi := by ring
    rw [e, Real.cos_neg, Real.cos_pi]

/-- C3 amended: for every radix sequence of positive radices whose product
is `N ≥ 2`, `GenerateTwiddleTable` emits exactly `N - 1` entries, each
being `(cos(j*theta), sin(j*theta))` with `theta = -2*pi*k/L` for stage
stride `L`, `k` in `[0, L/radix)`, `j` in `[1, radix)` (the angle data
`(j*k, L)` in the model); and entry 0 corresponds to the first stage's
`k = 0`, `j = 1`, whose angle is `0` (the unity rotation `(1, 0)`), not
`-2*pi/radix_0`. -/
theorem twiddleTable_size_and_entry0 (radices : List Nat) (N : Nat)
    (h1 : ∀ r ∈ radices, 1 ≤ r) (h2 : radices.prod = N) (h3 : 2 ≤ N) :
    (twiddleTable radices).length = N - 1 ∧
    (twiddleTable radices).head?.map Prod.fst = some 0 := by
  subst h2
  constructor
  · rw [twiddleTable, GenerateTwiddleTable_length radices 1 (by omega) h1, Nat.one_mul]
  · exact GenerateTwiddleTable_head radices 1 (by omega) h1 h3

/-- Witness for `twiddleTable_size_and_entry0` at the radix sequence
`[4, 2]` (length 8, the curated single-precision decomposition). -/
theorem twiddleTable_size_and_entry0_witness :
    ((∀ r ∈ ([4, 2] : List Nat), 1 ≤ r) ∧ ([4, 2] : List Nat).prod = 8 ∧ 2 ≤ 8) ∧
    ((twiddleTable [4, 2]).length = 8 - 1 ∧
      (twiddleTable [4, 2]).head?.map Prod.fst = some 0) :=
  ⟨⟨by decide, by decide, by decide⟩,
    twiddleTable_size_and_entry0 [4, 2] 8 (by decide) (by decide) (by decide)⟩

/-- C7 counterexample: the five claimed conditions (stride 1, linear
registers, final write, even per-work-item butterfly count,
complex-interleaved) do not suffice for the float4 grouped fast path.
With all five satisfied but `enableGrouping = false` -- as set by
`Kernel::IsGroupedReadWritePossible` for a plan whose higher-dimension
stride is odd (here 9) -- `SweepRegs` takes the general per-component
write path. -/
theorem fastPath_claimed_conditions_insufficient :
    claimedFastPathC7
      { numB := 2, regC := 1, stride := 1, numButterfly := 2, algLS := 2,
        flagIsWrite := true, nextPassNone := true, interleaved := true,
        componentBoth := true, linearRegs := true,
        enableGrouping := IsGroupedReadWritePossible false false [1, 9] [1, 9] }
      = true ∧
    groupedFloat4FastPath
      { numB := 2, regC := 1, stride := 1, numButterfly := 2, algLS := 2,
        flagIsWrite := true, nextPassNone := true, interleaved := true,
        componentBoth := true, linearRegs := true,
        enableGrouping := IsGroupedReadWritePossible false false [1, 9] [1, 9] }
      = false := by
  exact ⟨by decide, by decide⟩

/-- C7 amended: for a final-pass write of both components
(`flag == SR_WRITE`, `nextPass == NULL`, `SR_COMP_BOTH`, `regC = 1`,
`numB = numButterfly` -- the shape of every final complex write call site),
the pairwise-merged float4 store path is taken precisely when, in addition
to the five claimed conditions, the per-work-item butterfly count is
nonzero, the stage stride `algLS` is even, and grouped read/write is
enabled for the plan; otherwise the general per-component write path is
emitted. -/
theorem groupedFastPath_iff (a : SweepRegsArgs)
    (h1 : a.flagIsWrite = true) (h2 : a.nextPassNone = true)
    (h3 : a.componentBoth = true) (h4 : a.regC = 1)
    (h5 : a.numB = a.numButterfly) :
    groupedFloat4FastPath a = true ↔
      (claimedFastPathC7 a = true ∧ a.numButterfly ≠ 0 ∧ a.algLS % 2 = 0 ∧
        a.enableGrouping = true) := by
  simp only [groupedFloat4FastPath, claimedFastPathC7, h1, h2, h3, h4, h5,
    Bool.and_eq_true, Bool.and_true, Bool.true_and, bne_iff_ne, ne_eq,
    beq_iff_eq, decide_eq_true_eq]
  tauto

/-- Witness for `groupedFastPath_iff` at a concrete final complex write
with all fast-path conditions satisfied. -/
theorem groupedFastPath_iff_witness :
    groupedFloat4FastPath
        (SweepRegsArgs.mk 2 1 1 2 2 true true true true true true) = true ↔
      (claimedFastPathC7
          (SweepRegsArgs.mk 2 1 1 2 2 true true true true true true) = true ∧
        (SweepRegsArgs.mk 2 1 1 2 2 true true true true true true).numButterfly ≠ 0 ∧
        (SweepRegsArgs.mk 2 1 1 2 2 true true true true true true).algLS % 2 = 0 ∧
        (SweepRegsArgs.mk 2 1 1 2 2 true true true true true true).enableGrouping
          = true) :=
  groupedFastPath_iff (SweepRegsArgs.mk 2 1 1 2 2 true true true true true true)
    rfl rfl rfl rfl rfl

/-- C8: in every constructed kernel (radices from the curated table or from
a terminating run of the greedy loop), the per-stage twiddle rotation guard
`(position > 0) && (radix > 1)` of `Pass::GeneratePass` fires exactly for
passes at position > 0: the first pass performs no per-stage rotation and
every later pass performs it.  (Every pass at a positive position has radix
at least 2: table radices are 2/4/8, and a greedy run that picks radix 1
with remaining factor > 1 repeats that state forever and so never
terminates.) -/
theorem twiddle_rotation_iff_position_positive
    (pr : Precision) (mwgs length cn fuel : Nat) (rs : List Nat)
    (h : kernelRadices pr mwgs length cn fuel = some rs) :
    ∀ i, i < rs.length → (twiddleMulEmitted i (rs.getD i 0) = true ↔ 0 < i) := by
  have key : (∀ r ∈ rs, 2 ≤ r) ∨ rs = [1] := by
    rw [kernelRadices] at h
    split at h
    · left; exact GetRadices_ge_two pr length rs h
    · match length with
      | 0 => rw [greedyLoop_zero_len cn fuel []] at h; cases h
      | 1 =>
          right
          cases fuel with
          | zero => cases h
          | succ f =>
              rw [greedyLoop_one cn (f + 1) (by omega) []] at h
              simpa using (Option.some.inj h).symm
      | (n + 2) =>
          left
          exact greedyLoop_all_ge_two cn fuel (n + 2) [] rs (by omega) (by simp) h
  intro i hi
  rcases key with hall | hone
  · have hmem : rs.getD i 0 ∈ rs := by
      rw [List.getD_eq_getElem?_getD, List.getElem?_eq_getElem hi]
      exact List.getElem_mem _
    have h2 := hall _ hmem
    simp only [twiddleMulEmitted, Bool.and_eq_true, decide_eq_true_eq]
    omega
  · subst hone
    simp only [List.length_cons, List.length_nil] at hi
    interval_cases i
    simp [twiddleMulEmitted]

/-- Witness for `twiddle_rotation_iff_position_positive` on the length-8
single-precision kernel (table radices `[4, 2]`), pass 1. -/
theorem twiddle_rotation_iff_position_positive_witness :
    kernelRadices Precision.P_SINGLE 256 8 2 1 = some [4, 2] ∧
    (twiddleMulEmitted 1 (([4, 2] : List Nat).getD 1 0) = true ↔ 0 < 1) :=
  ⟨by decide,
    twiddle_rotation_iff_position_positive Precision.P_SINGLE 256 8 2 1 [4, 2]
      (by decide) 1 (by decide)⟩

end StockhamGenerator
